import Mathlib

/-!
# Verification of the doc-sync-notion document-processing core

Shallow embedding of the serverless document-processing handler and its
helpers (`supabase/functions/process-document/index.ts`,
`supabase/functions/_shared/validation.ts`,
`supabase/functions/_shared/encryption.ts`) in Lean 4, together with
theorems settling the specification claims about them.

Conventions of the embedding:
* JS strings are Lean `String`s; JS `null`/`undefined` string values are
  `Option String` with `none`.
* JS string truthiness (`if (s)`) is `jsTruthy` (`s ≠ ''`).
* JS numbers that hold byte sizes / timestamps are `Int` (they are integral
  in every reachable state of this code).
* JSON values are the inductive `Json`; JSON numbers are modelled as
  integers (the claims only exercise string-valued fields).
* Lowercasing is ASCII (`Char.toLower`); the only characters whose JS
  `toLowerCase` differs are non-ASCII characters that are rejected by every
  pattern in this code either way.
-/

/-! ## JS string primitives -/

/-- The character class `\s` of JS regular expressions (also the set of
characters removed by `String.prototype.trim`). -/
def jsIsSpace (c : Char) : Bool :=
  [' ', '\t', '\n', '\r', '\u000b', '\u000c', '\u00a0', '\u1680',
   '\u2000', '\u2001', '\u2002', '\u2003', '\u2004', '\u2005', '\u2006',
   '\u2007', '\u2008', '\u2009', '\u200a', '\u2028', '\u2029', '\u202f',
   '\u205f', '\u3000', '\ufeff'].contains c

/-- JS `String.prototype.trim`. -/
def jsTrim (s : String) : String :=
  ⟨((s.data.dropWhile jsIsSpace).reverse.dropWhile jsIsSpace).reverse⟩

/-- ASCII lowercasing, JS `String.prototype.toLowerCase` on the inputs that
matter here. -/
def lowerStr (s : String) : String :=
  ⟨s.data.map Char.toLower⟩

/-- JS truthiness of a string. -/
def jsTruthy (s : String) : Bool := s ≠ ""

/-- JS truthiness of a nullable string (`null`/`undefined` and `''` are
falsy). -/
def jsTruthyO : Option String → Bool
  | none => false
  | some s => jsTruthy s

/-- List-level protected check used to embed `String.prototype.startsWith`. -/
def listStarts : List Char → List Char → Bool
  | [], _ => true
  | _ :: _, [] => false
  | p :: ps, c :: cs => p == c && listStarts ps cs

/-- JS `String.prototype.startsWith`. -/
def jsStarts (pat s : String) : Bool :=
  listStarts pat.data s.data

/-- Split a character list at every occurrence of `sep` (JS
`String.prototype.split` with a single-character separator). -/
def splitCharAux (sep : Char) : List Char → List (List Char)
  | [] => [[]]
  | c :: rest =>
    match splitCharAux sep rest with
    | [] => if c == sep then [[], []] else [[c]]
    | g :: gs => if c == sep then [] :: g :: gs else (c :: g) :: gs

/-- JS `s.split(sep)` for a one-character separator. -/
def jsSplitChar (sep : Char) (s : String) : List String :=
  (splitCharAux sep s.data).map (fun g => ⟨g⟩)

/-- Contiguous-substring occurrence over character lists. -/
def listHas (pat : List Char) : List Char → Bool
  | [] => listStarts pat []
  | c :: rest => listStarts pat (c :: rest) || listHas pat rest

/-- JS `String.prototype.includes` (substring test); used for the
`wordprocessingml.document` MIME check. -/
def jsIncludes (s pat : String) : Bool :=
  listHas pat.data s.data

/-! ## Validation helpers (`_shared/validation.ts`) -/

/-- Result shape `{ valid, error? }` of the validators without a sanitized
field. -/
structure ValidationResult where
  valid : Bool
  error : Option String
deriving Repr, DecidableEq

/-- Result shape `{ valid, sanitized, error? }`. -/
structure SanitizedResult where
  valid : Bool
  sanitized : String
  error : Option String
deriving Repr, DecidableEq

/-- `validateFileSize(sizeInBytes, maxSizeMB)`. The source defaults
`maxSizeMB` to 20; call sites in this development pass 20 explicitly. -/
def validateFileSize (sizeInBytes : Int) (maxSizeMB : Int) : ValidationResult :=
  if sizeInBytes < 0 then
    { valid := false, error := some "Invalid file size" }
  else
    let maxBytes := maxSizeMB * 1024 * 1024
    if sizeInBytes > maxBytes then
      { valid := false, error := some s!"File size exceeds {maxSizeMB}MB limit" }
    else if sizeInBytes = 0 then
      { valid := false, error := some "File is empty" }
    else
      { valid := true, error := none }

/-- The default allow-list of `validateFileType`. -/
def allowedFileTypes : List String :=
  ["application/pdf", "image/jpeg", "image/png", "image/webp", "image/heic",
   "application/vnd.openxmlformats-officedocument.wordprocessingml.document",
   "application/msword"]

/-- `validateFileType(mimeType)` with its default allow-list; the argument is
nullable because the handler passes `document.file_type`. -/
def validateFileType (mimeType : Option String) : ValidationResult :=
  match mimeType with
  | none => { valid := false, error := some "File type is required" }
  | some m =>
    if m = "" then { valid := false, error := some "File type is required" }
    else
      let normalized := lowerStr (jsTrim m)
      if allowedFileTypes.contains normalized then
        { valid := true, error := none }
      else
        { valid := false, error := some s!"File type {m} not allowed" }

/-- Lowercase hexadecimal digit (the class `[0-9a-f]` of the UUID and
source-id patterns, applied after lowercasing). -/
def isHexLower (c : Char) : Bool :=
  c.isDigit || ('a' ≤ c && c ≤ 'f')

/-- Take exactly `n` hex characters off the front of a character list,
returning them and the rest. -/
def takeHexN : Nat → List Char → Option (List Char × List Char)
  | 0, cs => some ([], cs)
  | _ + 1, [] => none
  | n + 1, c :: cs =>
    if isHexLower c then
      match takeHexN n cs with
      | some (p, r) => some (c :: p, r)
      | none => none
    else none

/-- Consume one optional hyphen (the `-?` of the patterns; unambiguous since
every following character class excludes `-`). -/
def skipDash (cs : List Char) : List Char :=
  match cs with
  | c :: r => if c == '-' then r else c :: r
  | [] => []

/-- The regex
`^[0-9a-f]{8}-?[0-9a-f]{4}-?4[0-9a-f]{3}-?[89ab][0-9a-f]{3}-?[0-9a-f]{12}$`
as a deterministic matcher over the (already lowercased) characters. -/
def uuidV4Match (cs : List Char) : Bool :=
  match takeHexN 8 cs with
  | none => false
  | some (_, r1) =>
    match takeHexN 4 (skipDash r1) with
    | none => false
    | some (_, r2) =>
      match skipDash r2 with
      | [] => false
      | c3 :: r3 =>
        if c3 == '4' then
          match takeHexN 3 r3 with
          | none => false
          | some (_, r4) =>
            match skipDash r4 with
            | [] => false
            | c4 :: r5 =>
              if c4 == '8' || c4 == '9' || c4 == 'a' || c4 == 'b' then
                match takeHexN 3 r5 with
                | none => false
                | some (_, r6) =>
                  match takeHexN 12 (skipDash r6) with
                  | some (_, r7) => r7 == []
                  | none => false
              else false
        else false

/-- `validateUUID(uuid)` from `_shared/validation.ts`. -/
def validateUUID (uuid : String) : SanitizedResult :=
  if uuid = "" then
    { valid := false, sanitized := "", error := some "UUID is required" }
  else
    let trimmed := lowerStr (jsTrim uuid)
    if uuidV4Match trimmed.data then
      { valid := true, sanitized := trimmed, error := none }
    else
      { valid := false, sanitized := trimmed, error := some "Invalid UUID format" }

/-- The regex
`^[a-f0-9]{8}-?[a-f0-9]{4}-?[a-f0-9]{4}-?[a-f0-9]{4}-?[a-f0-9]{12}$`
of `validateSourceId`. -/
def sourceIdMatch (cs : List Char) : Bool :=
  match takeHexN 8 cs with
  | none => false
  | some (_, r1) =>
    match takeHexN 4 (skipDash r1) with
    | none => false
    | some (_, r2) =>
      match takeHexN 4 (skipDash r2) with
      | none => false
      | some (_, r3) =>
        match takeHexN 4 (skipDash r3) with
        | none => false
        | some (_, r4) =>
          match takeHexN 12 (skipDash r4) with
          | some (_, r5) => r5 == []
          | none => false

/-- `validateSourceId(sourceId)` from `_shared/validation.ts`. -/
def validateSourceId (sourceId : String) : SanitizedResult :=
  if sourceId = "" then
    { valid := false, sanitized := "", error := some "Source ID is required" }
  else
    let trimmed := lowerStr (jsTrim sourceId)
    if sourceIdMatch trimmed.data then
      { valid := true, sanitized := ⟨trimmed.data.filter (· ≠ '-')⟩, error := none }
    else
      { valid := false, sanitized := trimmed, error := some "Invalid source ID format" }

/-- JS truthiness of a `validateSourceId` result: the function returns an
object, and every object is truthy.  The handler's guard
`if (!validateSourceId(sourceId))` therefore never fires. -/
def objTruthy (_ : SanitizedResult) : Bool := true

/-! ## Rate limiter (`checkRateLimit` in `_shared/validation.ts`)

The global `rateLimitMap` is passed explicitly; timestamps (`Date.now()`)
are explicit `Int` inputs. -/

structure RateRecord where
  count : Int
  resetTime : Int
deriving Repr, DecidableEq

structure RateLimitResult where
  allowed : Bool
  remaining : Int
  resetTime : Int
deriving Repr, DecidableEq

/-- The backing `Map<string, {count, resetTime}>`. -/
def RateMap : Type := String → Option RateRecord

/-- `rateLimitMap.set(identifier, record)`. -/
def setRate (m : RateMap) (id : String) (r : RateRecord) : RateMap :=
  fun k => if k == id then some r else m k

/-- `checkRateLimit(identifier, maxRequests, windowMs)`, with the map and the
current time made explicit. -/
def checkRateLimit (m : RateMap) (identifier : String)
    (maxRequests windowMs now : Int) : RateLimitResult × RateMap :=
  match m identifier with
  | none =>
    let resetTime := now + windowMs
    ({ allowed := true, remaining := maxRequests - 1, resetTime := resetTime },
     setRate m identifier { count := 1, resetTime := resetTime })
  | some record =>
    if now > record.resetTime then
      let resetTime := now + windowMs
      ({ allowed := true, remaining := maxRequests - 1, resetTime := resetTime },
       setRate m identifier { count := 1, resetTime := resetTime })
    else if record.count ≥ maxRequests then
      ({ allowed := false, remaining := 0, resetTime := record.resetTime }, m)
    else
      ({ allowed := true, remaining := maxRequests - (record.count + 1),
         resetTime := record.resetTime },
       setRate m identifier { count := record.count + 1, resetTime := record.resetTime })

/-! ## JSON values and the CSV helpers of `process-document/index.ts` -/

/-- JSON values as produced by `JSON.parse` (numbers restricted to
integers; objects are assoc lists with distinct keys, which is what
`JSON.parse` yields since later duplicate keys overwrite earlier ones). -/
inductive Json where
  | null
  | b (v : Bool)
  | num (n : Int)
  | str (s : String)
  | arr (items : List Json)
  | obj (fields : List (String × Json))
deriving Repr

mutual

/-- JS `String(val)` coercion on JSON values. -/
def jsString : Json → String
  | Json.null => "null"
  | Json.b true => "true"
  | Json.b false => "false"
  | Json.num n => toString n
  | Json.str s => s
  | Json.arr xs => String.intercalate "," (jsStringArr xs)
  | Json.obj _ => "[object Object]"

/-- `Array.prototype.join(',')` renders `null` elements as empty. -/
def jsStringArr : List Json → List String
  | [] => []
  | Json.null :: rest => "" :: jsStringArr rest
  | j :: rest => jsString j :: jsStringArr rest

end

/-- `normalizeKey(k)`: strip `[_\s-]` and lowercase. -/
def normalizeKey (k : String) : String :=
  lowerStr ⟨k.data.filter (fun c => !(c == '_' || c == '-' || jsIsSpace c))⟩

/-- Split at the commas followed by an even number of quote characters
(the regex `,(?=(?:[^"]*"[^"]*")*[^"]*$)` splits exactly there); `total` is
the number of quotes in the whole line and `seen` the number scanned so
far. -/
def commaSplitAux (total : Nat) : List Char → Nat → List Char → List (List Char)
  | [], _, cur => [cur.reverse]
  | c :: rest, seen, cur =>
    if c == ',' && (seen % 2 == total % 2) then
      cur.reverse :: commaSplitAux total rest seen []
    else
      commaSplitAux total rest (if c == '"' then seen + 1 else seen) (c :: cur)

/-- `h.trim().replace(/^"|"$/g, '')`: drop one leading and one trailing
quote. -/
def stripOuterQuotes (s : String) : String :=
  let l := match s.data with
    | '"' :: r => r
    | l => l
  match l.reverse with
  | '"' :: r => ⟨r.reverse⟩
  | _ => ⟨l⟩

/-- `parseCSVHeaders(line)`. -/
def parseCSVHeaders (line : String) : List String :=
  let total := (line.data.filter (· == '"')).length
  (commaSplitAux total line.data 0 []).map (fun g => stripOuterQuotes (jsTrim ⟨g⟩))

/-- The row list of `rebuildCSVFromJson`: the array itself, else a nested
`items` array, else the single value. -/
def jsonRows (j : Json) : List Json :=
  match j with
  | Json.arr xs => xs
  | Json.obj fields =>
    match fields.find? (fun kv => kv.1 == "items") with
    | some (_, Json.arr xs) => xs
    | _ => [j]
  | _ => [j]

/-- `Object.keys(row).find(k => normalizeKey(k) === target)` followed by
`if (foundKey) val = row[foundKey]`; for arrays the keys are the index
strings.  The `if (foundKey)` guard tests JS truthiness of the found
*key*, so a matching key that is the empty string is skipped and the
cell stays empty. -/
def jsonRowValue (row : Json) (target : String) : Option Json :=
  match row with
  | Json.obj fields =>
    match fields.find? (fun kv => normalizeKey kv.1 == target) with
    | some kv => if jsTruthy kv.1 then some kv.2 else none
    | none => none
  | Json.arr xs =>
    match (List.range xs.length).find? (fun i => normalizeKey (toString i) == target) with
    | some i => if jsTruthy (toString i) then some (xs.getD i Json.null) else none
    | none => none
  | _ => none

/-- `str.replace(/"/g, '""')`. -/
def csvEscapeQuotes (s : String) : String :=
  ⟨s.data.foldr (fun c acc => if c == '"' then '"' :: '"' :: acc else c :: acc) []⟩

/-- One CSV cell of the rebuilt output: missing and `null` values become
`''`, quotes are doubled, and the cell is quoted when it contains
`,`, `\n`, `\r` or `"`. -/
def csvField (v : Option Json) : String :=
  let raw : String :=
    match v with
    | none => ""
    | some Json.null => ""
    | some j => jsString j
  let str := csvEscapeQuotes raw
  if str.data.any (fun c => c == ',' || c == '\n' || c == '\r' || c == '"') then
    "\"" ++ str ++ "\""
  else str

/-- `rebuildCSVFromJson(jsonData, headers)`. -/
def rebuildCSVFromJson (jsonData : Json) (headers : List String) : String :=
  let rows := jsonRows jsonData
  let headerNorm := headers.map normalizeKey
  let csvRows :=
    String.intercalate "," headers ::
      rows.map (fun row =>
        String.intercalate "," (headerNorm.map (fun target => csvField (jsonRowValue row target))))
  String.intercalate "\n" csvRows

/-- The CSV/header reconciliation block of the handler (the body of
`if (notionHeaders && notionHeaders.length) { ... }`). -/
def enforceNotionHeaders (csvData : String) (jsonData : Json)
    (notionHeaders : List String) : String :=
  if notionHeaders.length == 0 then csvData
  else if !jsTruthy csvData || !jsTruthy (jsTrim csvData) then
    rebuildCSVFromJson jsonData notionHeaders
  else
    let firstLine := (jsSplitChar '\n' csvData).headD ""
    let got := parseCSVHeaders firstLine
    let ok := got.length == notionHeaders.length &&
      (got.zip notionHeaders).all (fun gw => normalizeKey gw.1 == normalizeKey gw.2)
    if ok then csvData else rebuildCSVFromJson jsonData notionHeaders

/-! ## Base64 (`btoa`/`atob`) and the encryption helper
(`_shared/encryption.ts`)

The Web Crypto primitives (`PBKDF2` derivation, `AES-GCM`
encrypt/decrypt) and `TextEncoder`/`TextDecoder` are platform APIs, not
code of this repository; they appear as the abstract fields of
`GcmModel`.  The byte packing `salt ‖ iv ‖ ciphertext` and the base64
encoding are the repository's code and are embedded concretely. -/

/-- The base64 alphabet. -/
def b64Chars : List Char :=
  "ABCDEFGHIJKLMNOPQRSTUVWXYZabcdefghijklmnopqrstuvwxyz0123456789+/".data

/-- Character of a sextet. -/
def b64Char (n : Nat) : Char := b64Chars.getD n '?'

/-- Sextet of a character. -/
def b64Index (c : Char) : Option Nat := b64Chars.findIdx? (· == c)

/-- `btoa(String.fromCharCode(...bytes))`. -/
def b64encode : List Nat → List Char
  | [] => []
  | [b1] => [b64Char (b1 / 4), b64Char (b1 % 4 * 16), '=', '=']
  | [b1, b2] =>
    [b64Char (b1 / 4), b64Char (b1 % 4 * 16 + b2 / 16), b64Char (b2 % 16 * 4), '=']
  | b1 :: b2 :: b3 :: rest =>
    b64Char (b1 / 4) :: b64Char (b1 % 4 * 16 + b2 / 16) ::
      b64Char (b2 % 16 * 4 + b3 / 64) :: b64Char (b3 % 64) :: b64encode rest

/-- `atob` followed by `charCodeAt` over the result, on well-formed
base64 input. -/
def b64decode : List Char → Option (List Nat)
  | [] => some []
  | c1 :: c2 :: c3 :: c4 :: rest =>
    if c3 == '=' && c4 == '=' && rest == [] then do
      let s1 ← b64Index c1
      let s2 ← b64Index c2
      pure [s1 * 4 + s2 / 16]
    else if c4 == '=' && rest == [] then do
      let s1 ← b64Index c1
      let s2 ← b64Index c2
      let s3 ← b64Index c3
      pure [s1 * 4 + s2 / 16, s2 % 16 * 16 + s3 / 4]
    else do
      let s1 ← b64Index c1
      let s2 ← b64Index c2
      let s3 ← b64Index c3
      let s4 ← b64Index c4
      let tail ← b64decode rest
      pure ([s1 * 4 + s2 / 16, s2 % 16 * 16 + s3 / 4, s3 % 4 * 64 + s4] ++ tail)
  | _ => none

/-- Abstract model of the platform crypto and text-codec APIs used by
`encryptData`/`decryptData`:
`deriveKey` is `PBKDF2(secretBytes, salt)`, `encrypt`/`decrypt` are
`AES-GCM` with a 128-bit tag (`decrypt` returns `none` on authentication
failure, which the source surfaces as a thrown `OperationError`), and
`encode`/`decode` are `TextEncoder`/`TextDecoder`. -/
structure GcmModel where
  deriveKey : List Nat → List Nat → List Nat
  encrypt : List Nat → List Nat → List Nat → List Nat
  decrypt : List Nat → List Nat → List Nat → Option (List Nat)
  encode : String → List Nat
  decode : List Nat → String

/-- `encryptData(plaintext, encryptionSecret)`; the random 16-byte salt and
12-byte IV are explicit inputs, and `none` models the thrown error on an
empty argument. -/
def encryptData (M : GcmModel) (plaintext encryptionSecret : String)
    (salt iv : List Nat) : Option String :=
  if plaintext = "" || encryptionSecret = "" then none
  else
    let data := M.encode plaintext
    let key := M.deriveKey (M.encode encryptionSecret) salt
    let encryptedData := M.encrypt key iv data
    let combined := salt ++ iv ++ encryptedData
    some ⟨b64encode combined⟩

/-- `decryptData(encryptedBase64, encryptionSecret)`; `none` models every
thrown error (empty argument, malformed base64, authentication failure). -/
def decryptData (M : GcmModel) (encryptedBase64 encryptionSecret : String) :
    Option String :=
  if encryptedBase64 = "" || encryptionSecret = "" then none
  else
    match b64decode encryptedBase64.data with
    | none => none
    | some combined =>
      let salt := combined.take 16
      let iv := (combined.drop 16).take 12
      let encryptedData := combined.drop 28
      let key := M.deriveKey (M.encode encryptionSecret) salt
      match M.decrypt key iv encryptedData with
      | none => none
      | some decryptedData => some (M.decode decryptedData)

/-! ## The document-processing handler (`process-document/index.ts`)

The handler body (lines 34–652 of the source) is embedded as a pure
function from a `HandlerInput` — the request together with the outcome of
every external interaction (database reads, environment, decryption,
schema fetch, storage download, local text extraction, the AI call) — to
the HTTP response plus the accumulated side effects (document-row updates
issued, audit entries, whether the AI endpoint was called, rows
inserted).  A thrown JS exception is `Sum.inl message`; the `catch` block
is `processDocument`'s wrapper around `mainBody`. -/

/-- `s.slice(0, n)`. -/
def strTake (s : String) (n : Nat) : String := ⟨s.data.take n⟩

/-- JS `String.prototype.endsWith`. -/
def jsEnds (pat s : String) : Bool :=
  listStarts pat.data.reverse s.data.reverse

/-- JS template-literal interpolation of a nullable string (`null` prints
as `"null"`). -/
def jsInterpO : Option String → String
  | some s => s
  | none => "null"

/-- A row of the `documents` table. -/
structure DocRow where
  id : String
  user_id : String
  filename : Option String
  file_url : String
  file_type : Option String
  file_size : Int
  source_id : Option String
  status : String
  error_message : Option String
deriving Repr, DecidableEq

/-- The environment variables the handler reads. -/
structure Env where
  encryptionSecret : Option String
  notionApiKey : Option String
  geminiApiKey : Option String
deriving Repr

/-- Outcome of the Gemini HTTP call: non-2xx status, a 2xx body without
the expected `candidates[0].content` shape, or a text whose three fenced
blocks parse to the given values (the fenced-block extraction itself,
lines 503–537, is outside the claims and absorbed into this input). -/
inductive AiOutcome where
  | httpError (status : Int) (text : String)
  | badShape
  | ok (jsonData : Json) (markdownContent : String) (csvData : String)

/-- A `status`/`error_message` update issued against the `documents`
table (`errMsg = none` when the update does not touch `error_message`). -/
structure DocUpdate where
  docId : String
  status : String
  errMsg : Option String
deriving Repr, DecidableEq

/-- An audit entry as passed to `logAuditEvent` (the fields the claims
mention). -/
structure AuditEntry where
  eventType : String
  severity : String
  action : String
  status : String
deriving Repr, DecidableEq

/-- Side effects accumulated by a run, plus the handler's mutable
`documentId` variable (the `catch` block reads it). -/
structure Effects where
  documentIdVar : Option String
  docUpdates : List DocUpdate
  audits : List AuditEntry
  aiCalled : Bool
  inserted : List String
deriving Repr, DecidableEq

def emptyEffects : Effects := ⟨none, [], [], false, []⟩

def addAudit (e : Effects) (a : AuditEntry) : Effects :=
  { e with audits := e.audits ++ [a] }

def addUpdate (e : Effects) (u : DocUpdate) : Effects :=
  { e with docUpdates := e.docUpdates ++ [u] }

inductive RespBody where
  | success
  | err (msg : String)
  | rateLimited (msg : String) (resetTime : Int)
deriving Repr, DecidableEq

structure HttpResponse where
  status : Nat
  body : RespBody
deriving Repr, DecidableEq

/-- The request together with the outcome of every external interaction of
one run. -/
structure HandlerInput where
  /-- state of the in-memory rate-limit map at entry -/
  rateState : RateMap
  /-- caller IP (the rate-limit key) -/
  ip : String
  /-- `Date.now()` at the rate check -/
  now : Int
  /-- `body?.documentId ?? null` -/
  body_documentId : Option String
  /-- the `documents` table, keyed by id -/
  db : String → Option DocRow
  /-- `(await supabaseClient.auth.getUser()).data.user?.id` -/
  authUser : Option String
  env : Env
  /-- the `user_settings` select returned an error -/
  settingsFetchError : Bool
  /-- `userSettings?.notion_api_key` when the select succeeded -/
  userSettingsKey : Option String
  /-- result of `decryptData` on the stored key (`none` = threw) -/
  decryptResult : Option String
  /-- `Object.keys(notionSchema.properties)` when the schema fetch
  produced a schema with properties, else `none` -/
  schemaHeaders : Option (List String)
  /-- the file bytes were obtained (storage download or URL fallback) -/
  fileFetchOk : Bool
  /-- status of the failed fallback fetch (used in the thrown message) -/
  fallbackStatus : Int
  /-- body text of the failed fallback fetch -/
  fallbackText : String
  /-- result of `extractPdfText` (`none` = threw) -/
  pdfExtract : Option String
  /-- result of `extractDocxText` (`none` = threw) -/
  docxExtract : Option String
  aiOutcome : AiOutcome
  /-- the `extracted_data` insert succeeded -/
  insertOk : Bool

/-- Message from the external PostgREST client when `.single()` matches no
row (exact text belongs to the external library). -/
def singleRowErrorMsg : String :=
  "JSON object requested, multiple (or no) rows returned"

/-- Message from the external client when the `extracted_data` insert
fails (exact text belongs to the external library; no claim depends on
it). -/
def insertErrorMsg : String := "extracted_data insert failed"

def invalidIdAudit : AuditEntry :=
  ⟨"security.invalid_input", "warning", "process_document_invalid_id", "failure"⟩
def unauthorizedAudit : AuditEntry :=
  ⟨"security.unauthorized_access", "error", "process_document_unauthorized", "failure"⟩
def startAudit : AuditEntry :=
  ⟨"document.process", "info", "process_document_start", "success"⟩
def sourceIdAudit : AuditEntry :=
  ⟨"security.invalid_input", "medium", "validate_source_id", "failure"⟩
def settingsFetchAudit : AuditEntry :=
  ⟨"data.access", "medium", "fetch_user_settings", "failure"⟩
def encSecretMissingAudit : AuditEntry :=
  ⟨"encryption.failure", "critical", "decrypt_api_key", "failure"⟩
def personalKeyAudit : AuditEntry :=
  ⟨"api_key.usage", "info", "use_personal_notion_key", "success"⟩
def decryptFailAudit : AuditEntry :=
  ⟨"encryption.failure", "high", "decrypt_api_key", "failure"⟩
def systemKeyAudit : AuditEntry :=
  ⟨"api_key.usage", "info", "use_system_notion_key", "success"⟩
def schemaOkAudit : AuditEntry :=
  ⟨"data.access", "info", "fetch_notion_schema", "success"⟩
def schemaFailAudit : AuditEntry :=
  ⟨"data.access", "warning", "fetch_notion_schema", "failure"⟩
def processedAudit : AuditEntry :=
  ⟨"document.processed", "info", "process_document_complete", "success"⟩
/-- The audit written by the `catch` block.  (Its `userId: document?.user_id`
references a variable that is out of scope there; the entry is still
recorded here since no claim depends on it.) -/
def catchAudit : AuditEntry :=
  ⟨"document.process", "error", "process_document_error", "failure"⟩

/-- Lines 179–327: the Notion-key resolution and schema fetch inside
`if (sourceId)`.  Returns the audit entries written and the
`notionHeaders` value.  This block cannot throw: settings-fetch errors,
decryption failures and schema failures are all caught and logged. -/
def notionRest (inp : HandlerInput) : List AuditEntry × Option (List String) :=
  let a1 : List AuditEntry := if inp.settingsFetchError then [settingsFetchAudit] else []
  let cipher : Option String := if inp.settingsFetchError then none else inp.userSettingsKey
  let pa : Option String × List AuditEntry :=
    if jsTruthyO cipher then
      if !jsTruthyO inp.env.encryptionSecret then (none, [encSecretMissingAudit])
      else
        match inp.decryptResult with
        | some k => (some k, [personalKeyAudit])
        | none => (none, [decryptFailAudit])
    else (none, [])
  let ka : Option String × List AuditEntry :=
    if !jsTruthyO pa.1 then
      (inp.env.notionApiKey, if jsTruthyO inp.env.notionApiKey then [systemKeyAudit] else [])
    else (pa.1, [])
  let ha : List AuditEntry × Option (List String) :=
    if !jsTruthyO ka.1 then ([], none)
    else
      match inp.schemaHeaders with
      | some hs => ([schemaOkAudit], some hs)
      | none => ([schemaFailAudit], none)
  (a1 ++ pa.2 ++ ka.2 ++ ha.1, ha.2)

/-- The thrown message when both download paths fail (the fallback
response status and first 200 body characters are interpolated). -/
def fetchFailMsg (inp : HandlerInput) : String :=
  "Failed to fetch file_url (" ++ toString inp.fallbackStatus ++ "): "
    ++ strTake inp.fallbackText 200

/-- The `error_message` written by the unsupported-file-type gate. -/
def unsupportedMsg (ft : Option String) : String :=
  "Unsupported file type for automated processing: " ++ jsInterpO ft
    ++ ". Supported: images, PDFs, DOCX."

/-- Lines 371–384: the local text extraction attempt.  Extraction runs for
`application/pdf` MIME types and for `wordprocessingml.document` MIME
types or `.docx` filenames, its exceptions are swallowed (`none`);
everything else is skipped. -/
def inlineTextOf (inp : HandlerInput) (doc : DocRow) : Option String :=
  if jsStarts "application/pdf" (doc.file_type.getD "") then inp.pdfExtract
  else if jsIncludes (doc.file_type.getD "") "wordprocessingml.document"
      || (match doc.filename with
          | some f => jsEnds ".docx" (lowerStr f)
          | none => false) then inp.docxExtract
  else none

/-- `document.file_type?.startsWith('image/')` (false when the type is
null). -/
def isImageType (doc : DocRow) : Bool :=
  match doc.file_type with
  | some t => jsStarts "image/" t
  | none => false

/-- Lines 330–598: from the `processing` mark to the success response. -/
def mainTail (inp : HandlerInput) (doc : DocRow) (documentId : String)
    (notionHeaders : Option (List String)) (eff : Effects) :
    Sum String HttpResponse × Effects :=
  let eff := addUpdate eff ⟨documentId, "processing", none⟩
  if !jsTruthyO inp.env.geminiApiKey then
    (Sum.inl "GEMINI_API_KEY is not configured. Get one from https://aistudio.google.com/apikey", eff)
  else if !inp.fileFetchOk then
    (Sum.inl (fetchFailMsg inp), eff)
  else
    let inlineTextFromFile := inlineTextOf inp doc
    let isImage := isImageType doc
    if !jsTruthyO inlineTextFromFile && !isImage then
      let eff := addUpdate eff ⟨documentId, "error",
        some (unsupportedMsg doc.file_type)⟩
      (Sum.inr ⟨400, RespBody.err "Unsupported file type. Supported: images, PDFs, DOCX."⟩, eff)
    else
      let eff := { eff with aiCalled := true }
      match inp.aiOutcome with
      | AiOutcome.httpError st txt =>
        (Sum.inl ("AI processing failed (" ++ toString st ++ "): " ++ txt), eff)
      | AiOutcome.badShape => (Sum.inl "Invalid response from Gemini API", eff)
      | AiOutcome.ok jsonData _markdownContent csvData =>
        let _csvFinal :=
          match notionHeaders with
          | some hs => enforceNotionHeaders csvData jsonData hs
          | none => csvData
        if !inp.insertOk then (Sum.inl insertErrorMsg, eff)
        else
          let eff := { eff with inserted := eff.inserted ++ [documentId] }
          let eff := addUpdate eff ⟨documentId, "completed", none⟩
          let eff := addAudit eff processedAudit
          (Sum.inr ⟨200, RespBody.success⟩, eff)

/-- Lines 43–598: the `try` block. -/
def mainBody (inp : HandlerInput) : Sum String HttpResponse × Effects :=
  let rate := (checkRateLimit inp.rateState inp.ip 50 60000 inp.now).1
  if !rate.allowed then
    (Sum.inr ⟨429, RespBody.rateLimited "Rate limit exceeded. Please try again later." rate.resetTime⟩,
     emptyEffects)
  else
    let eff : Effects := { emptyEffects with documentIdVar := inp.body_documentId }
    let docIdValidation := validateUUID (match inp.body_documentId with
      | some s => s
      | none => "")
    if !docIdValidation.valid then
      let eff := addAudit eff invalidIdAudit
      (Sum.inl (docIdValidation.error.getD "Invalid document ID"), eff)
    else
      let documentId := docIdValidation.sanitized
      let eff := { eff with documentIdVar := some documentId }
      match inp.db documentId with
      | none => (Sum.inl singleRowErrorMsg, eff)
      | some document =>
        let ownerMismatch := match inp.authUser with
          | none => true
          | some uid => document.user_id != uid
        if ownerMismatch then
          let eff := addAudit eff unauthorizedAudit
          (Sum.inl "Unauthorized", eff)
        else
          let fileSizeValidation := validateFileSize document.file_size 20
          if !fileSizeValidation.valid then
            (Sum.inl (fileSizeValidation.error.getD "undefined"), eff)
          else
            let fileTypeValidation := validateFileType document.file_type
            if !fileTypeValidation.valid then
              (Sum.inl (fileTypeValidation.error.getD "undefined"), eff)
            else
              let eff := addAudit eff startAudit
              let sourceId := document.source_id
              if jsTruthyO sourceId then
                -- `if (!validateSourceId(sourceId))`: the result object is
                -- always truthy, so this guard can never fire.
                if !objTruthy (validateSourceId (sourceId.getD "")) then
                  let eff := addAudit eff sourceIdAudit
                  (Sum.inr ⟨400, RespBody.err "Invalid source_id format"⟩, eff)
                else
                  let na := notionRest inp
                  let eff := { eff with audits := eff.audits ++ na.1 }
                  mainTail inp document documentId na.2 eff
              else
                mainTail inp document documentId none eff

/-- The full handler: the `try` block plus the `catch` block (lines
599–651), which best-effort marks the document `error` with the truncated
message, writes a failure audit, and returns 500. -/
def processDocument (inp : HandlerInput) : HttpResponse × Effects :=
  match mainBody inp with
  | (Sum.inr resp, eff) => (resp, eff)
  | (Sum.inl msg, eff) =>
    let eff :=
      if jsTruthyO eff.documentIdVar then
        addAudit (addUpdate eff ⟨eff.documentIdVar.getD "", "error", some (strTake msg 500)⟩)
          catchAudit
      else eff
    (⟨500, RespBody.err msg⟩, eff)

/-- Modelled from the spec: the row-level-security policies of the
`documents` table (the migration defining them is not under `src/`).
Spec §4.1 step 3 says a request authenticated as a non-owner "never
mutates the document", so an update issued through the caller's client
applies only to rows owned by the authenticated caller; an update naming
an id with no row is a no-op.  Each applied update sets `status` and,
when given, `error_message`. -/
def applyDocUpdates (authUser : Option String) (db : String → Option DocRow)
    (ups : List DocUpdate) : String → Option DocRow :=
  ups.foldl
    (fun acc u => fun k =>
      match acc k with
      | none => none
      | some row =>
        if k == u.docId && some row.user_id == authUser then
          some { row with
                 status := u.status,
                 error_message := match u.errMsg with
                   | none => row.error_message
                   | some m => some m }
        else some row)
    db

/-- The `documents` table after a run: the updates the run issued, filtered
by row-level security. -/
def finalDocs (inp : HandlerInput) : String → Option DocRow :=
  applyDocUpdates inp.authUser inp.db (processDocument inp).2.docUpdates

/-! ## Theorems -/

/-! ### C9: file-size validator bounds -/

/-- C9 counterexample: the claim says the validator "returns valid exactly
for byte sizes s with s > 0 and s below the ceiling of 20 MB
(20 * 1024 * 1024 bytes)", but the source only rejects sizes strictly
*above* the ceiling: at exactly s = 20971520 = 20 * 1024 * 1024 the
validator returns valid although s is not below the ceiling. -/
theorem file_size_at_ceiling_cex :
    (validateFileSize 20971520 20).valid = true ∧
    ¬ ((20971520 : Int) < 20 * 1024 * 1024) := by
  constructor
  · decide
  · decide

/-- C9 (amended): at the default 20 MB ceiling the validator returns valid
exactly for 0 < s ≤ 20 * 1024 * 1024 bytes, and every invalid result
carries an error message. -/
theorem file_size_bound (s : Int) :
    ((validateFileSize s 20).valid = true ↔ 0 < s ∧ s ≤ 20 * 1024 * 1024) ∧
    ((validateFileSize s 20).valid = false →
      (validateFileSize s 20).error.isSome = true) := by
  simp only [validateFileSize]
  constructor
  · split_ifs with h1 h2 h3 <;> simp <;> omega
  · split_ifs <;> simp

/-- C9 witness: the amended theorem applied at s = 0 discharges its
hypothesis. -/
theorem file_size_bound_witness :
    (validateFileSize 0 20).valid = false ∧
    (validateFileSize 0 20).error.isSome = true :=
  ⟨by decide, (file_size_bound 0).2 (by decide)⟩

/-! ### C8: fixed-window rate limiter -/

/-- Run `checkRateLimit` once per listed timestamp for the same key,
returning the final map and whether every request was admitted. -/
def admitSeq (m : RateMap) (id : String) (maxR w : Int) : List Int → RateMap × Bool
  | [] => (m, true)
  | t :: ts =>
    let r := checkRateLimit m id maxR w t
    let rest := admitSeq r.2 id maxR w ts
    (rest.1, r.1.allowed && rest.2)

/-- Requests inside the current window are admitted while the counter is
below the limit, and each admission increments the counter by one. -/
theorem admitSeq_inWindow (id : String) (maxR w R : Int) :
    ∀ (ts : List Int) (m : RateMap) (c : Int),
      m id = some ⟨c, R⟩ → (∀ t ∈ ts, t ≤ R) → 1 ≤ c →
      c + ts.length ≤ maxR →
      (admitSeq m id maxR w ts).2 = true ∧
      (admitSeq m id maxR w ts).1 id = some ⟨c + ts.length, R⟩ := by
  intro ts
  induction ts with
  | nil =>
    intro m c hm _ _ _
    simp [admitSeq, hm]
  | cons t ts ih =>
    intro m c hm hts hc hle
    have ht : t ≤ R := hts t (List.mem_cons_self _ _)
    have h1 : ¬ (t > R) := by omega
    have hlen : ((t :: ts).length : Int) = (ts.length : Int) + 1 := by
      simp
    have h2 : ¬ (c ≥ maxR) := by omega
    have hstep : checkRateLimit m id maxR w t =
        ({ allowed := true, remaining := maxR - (c + 1), resetTime := R },
         setRate m id { count := c + 1, resetTime := R }) := by
      simp [checkRateLimit, hm, h1, h2]
    have hm' : (setRate m id { count := c + 1, resetTime := R }) id
        = some ⟨c + 1, R⟩ := by
      simp [setRate]
    have ihh := ih (setRate m id ⟨c + 1, R⟩) (c + 1) hm'
      (fun t' ht' => hts t' (List.mem_cons_of_mem _ ht'))
      (by omega) (by omega)
    refine ⟨?_, ?_⟩
    · simp [admitSeq, hstep, ihh.1]
    · have : c + ((t :: ts).length : Int) = (c + 1) + (ts.length : Int) := by
        omega
      rw [this]
      simpa [admitSeq, hstep] using ihh.2

/-- C8: with limit N, after N admitted requests for a key inside the
current fixed window (the first request at `t0` opens the window with
reset time `t0 + w`), the (N+1)-th request inside the same window is
rejected and leaves the counter untouched, while the first request after
the reset time has passed is admitted and starts a fresh window with its
counter at 1. -/
theorem rate_limiter_fixed_window (m0 : RateMap) (id : String) (w : Int)
    (N : Nat) (t0 : Int) (ts : List Int)
    (hm : m0 id = none) (hN : 1 ≤ N) (hlen : ts.length = N - 1)
    (hts : ∀ t ∈ ts, t ≤ t0 + w) :
    (admitSeq m0 id (N : Int) w (t0 :: ts)).2 = true ∧
    (admitSeq m0 id (N : Int) w (t0 :: ts)).1 id = some ⟨(N : Int), t0 + w⟩ ∧
    (∀ t', t' ≤ t0 + w →
      (checkRateLimit (admitSeq m0 id (N : Int) w (t0 :: ts)).1 id (N : Int) w t').1.allowed
          = false ∧
      (checkRateLimit (admitSeq m0 id (N : Int) w (t0 :: ts)).1 id (N : Int) w t').2 id
          = some ⟨(N : Int), t0 + w⟩) ∧
    (∀ t', t0 + w < t' →
      (checkRateLimit (admitSeq m0 id (N : Int) w (t0 :: ts)).1 id (N : Int) w t').1.allowed
          = true ∧
      (checkRateLimit (admitSeq m0 id (N : Int) w (t0 :: ts)).1 id (N : Int) w t').2 id
          = some ⟨1, t' + w⟩) := by
  have hlen' : (ts.length : Int) = (N : Int) - 1 := by omega
  have hstep : checkRateLimit m0 id (N : Int) w t0 =
      ({ allowed := true, remaining := (N : Int) - 1, resetTime := t0 + w },
       setRate m0 id { count := 1, resetTime := t0 + w }) := by
    simp [checkRateLimit, hm]
  have hm1 : (setRate m0 id { count := 1, resetTime := t0 + w }) id
      = some ⟨1, t0 + w⟩ := by
    simp [setRate]
  have key := admitSeq_inWindow id (N : Int) w (t0 + w) ts
    (setRate m0 id ⟨1, t0 + w⟩) 1 hm1 hts (by omega) (by omega)
  have hcount : (1 : Int) + (ts.length : Int) = (N : Int) := by omega
  have hfin : (admitSeq m0 id (N : Int) w (t0 :: ts)).1 id = some ⟨(N : Int), t0 + w⟩ := by
    have := key.2
    rw [hcount] at this
    simpa [admitSeq, hstep] using this
  refine ⟨?_, hfin, ?_, ?_⟩
  · simp [admitSeq, hstep, key.1]
  · intro t' ht'
    have h1 : ¬ (t' > t0 + w) := by omega
    constructor
    · simp [checkRateLimit, hfin, h1]
    · simp [checkRateLimit, hfin, h1]
  · intro t' ht'
    have h1 : t' > t0 + w := ht'
    constructor
    · simp [checkRateLimit, hfin, h1]
    · simp [checkRateLimit, hfin, h1, setRate]

/-- C8 witness: limit 2, window 60000 starting at t = 0; the requests at
t = 0 and t = 5 are admitted, a third at t = 10 (inside the window) is
rejected, and a request at t = 70000 (after the reset time) is admitted
with a fresh counter of 1. -/
theorem rate_limiter_fixed_window_witness :
    ((fun _ => none : RateMap) "203.0.113.7" = none) ∧
    (admitSeq (fun _ => none) "203.0.113.7" 2 60000 [0, 5]).2 = true ∧
    (checkRateLimit (admitSeq (fun _ => none) "203.0.113.7" 2 60000 [0, 5]).1
        "203.0.113.7" 2 60000 10).1.allowed = false ∧
    (checkRateLimit (admitSeq (fun _ => none) "203.0.113.7" 2 60000 [0, 5]).1
        "203.0.113.7" 2 60000 70000).1.allowed = true ∧
    (checkRateLimit (admitSeq (fun _ => none) "203.0.113.7" 2 60000 [0, 5]).1
        "203.0.113.7" 2 60000 70000).2 "203.0.113.7" = some ⟨1, 130000⟩ := by
  have h := rate_limiter_fixed_window (fun _ => none) "203.0.113.7" 60000 2 0 [5]
    rfl (by decide) rfl (by intro t ht; simp at ht; omega)
  refine ⟨rfl, ?_, ?_, ?_, ?_⟩
  · simpa using h.1
  · exact (h.2.2.1 10 (by norm_num)).1
  · exact (h.2.2.2 70000 (by norm_num)).1
  · simpa using (h.2.2.2 70000 (by norm_num)).2

/-! ### C1: CSV rebuild from JSON -/

/-- The original claim's field rule, stated literally: the value of the
row key whose normalized form equals the normalized header, empty only
when no key matches — without the source's JS truthiness guard on the
found key. -/
def jsonRowValueClaim (row : Json) (target : String) : Option Json :=
  match row with
  | Json.obj fields =>
    match fields.find? (fun kv => normalizeKey kv.1 == target) with
    | some kv => some kv.2
    | none => none
  | Json.arr xs =>
    match (List.range xs.length).find? (fun i => normalizeKey (toString i) == target) with
    | some i => some (xs.getD i Json.null)
    | none => none
  | _ => none

/-- The rebuild as the original claim describes it (fields looked up by
`jsonRowValueClaim`, with no empty-key exception). -/
def rebuildClaimDesc (jsonData : Json) (headers : List String) : String :=
  String.intercalate "\n"
    (String.intercalate "," headers ::
      (jsonRows jsonData).map (fun row =>
        String.intercalate ","
          (headers.map (fun h => csvField (jsonRowValueClaim row (normalizeKey h))))))

/-- C1 counterexample: at the JSON row `{"": "X"}` with expected header
`"_"` the row key `""` normalizes to `""`, which equals the normalized
header, so the claim as stated makes the field `"X"` — but the program's
`if (foundKey)` guard treats the empty-string key as falsy and leaves
the cell empty: the rebuilt CSV is `"_\n"`, not the claimed
`"_\nX"`. -/
theorem rebuild_csv_correct_cex :
    normalizeKey "" = normalizeKey "_" ∧
    rebuildClaimDesc (Json.obj [("", Json.str "X")]) ["_"] = "_\nX" ∧
    rebuildCSVFromJson (Json.obj [("", Json.str "X")]) ["_"] = "_\n" ∧
    rebuildCSVFromJson (Json.obj [("", Json.str "X")]) ["_"]
      ≠ rebuildClaimDesc (Json.obj [("", Json.str "X")]) ["_"] := by
  exact ⟨by decide, by decide, by decide, by decide⟩

/-- The amended claim's description of the rebuild, stated independently:
the first line is the headers joined by commas; below it, one line per
JSON row (the object itself, the elements of its `items` array, or the
elements of the array), whose i-th field renders the value of the row key
whose normalized form equals the normalized i-th header — except that a
matching key that is the empty string (falsy in JS) leaves the field
empty — and is empty when no key matches. -/
def rebuildSpec (jsonData : Json) (headers : List String) : String :=
  String.intercalate "\n"
    (String.intercalate "," headers ::
      (jsonRows jsonData).map (fun row =>
        String.intercalate ","
          (headers.map (fun h => csvField (jsonRowValue row (normalizeKey h))))))

/-- C1 (amended): for every JSON value and non-empty expected-header
list the rebuilt CSV has exactly the claimed shape with the empty-key
exception, and the two concrete examples of the claim come out exactly
as stated. -/
theorem rebuild_csv_correct (j : Json) (hs : List String) (_hne : hs ≠ []) :
    rebuildCSVFromJson j hs = rebuildSpec j hs ∧
    rebuildCSVFromJson
        (Json.obj [("Name", Json.str "Bob"), ("Age", Json.str "30")])
        ["name", "age"] = "name,age\nBob,30" ∧
    rebuildCSVFromJson
        (Json.obj [("items", Json.arr
          [Json.obj [("Name", Json.str "A")], Json.obj [("Name", Json.str "B")]])])
        ["name"] = "name\nA\nB" := by
  refine ⟨?_, by decide, by decide⟩
  simp [rebuildCSVFromJson, rebuildSpec, List.map_map, Function.comp_def]

/-- C1 witness: the theorem applied at a concrete row and header list. -/
theorem rebuild_csv_correct_witness :
    (["name"] ≠ ([] : List String)) ∧
    rebuildCSVFromJson (Json.obj [("Name", Json.str "Eve")]) ["name"]
      = rebuildSpec (Json.obj [("Name", Json.str "Eve")]) ["name"] :=
  ⟨by decide, (rebuild_csv_correct (Json.obj [("Name", Json.str "Eve")]) ["name"]
      (by decide)).1⟩

/-! ### C2: idempotent header reconciliation -/

/-- C2 counterexample: the claim quantifies over every non-empty CSV
string, but for the non-empty CSV `" "` with expected headers `["_"]` the
hypothesis of the claim holds — the first line parses to one entry whose
normalization (`""`) equals the normalization of the expected header —
yet the reconciliation step rebuilds (output `"_\n"`) instead of
returning the CSV unchanged, because `csvData.trim()` is falsy. -/
theorem reconcile_unchanged_cex :
    (" " : String) ≠ "" ∧
    (parseCSVHeaders ((jsSplitChar '\n' " ").headD "")).length = (["_"] : List String).length ∧
    ((parseCSVHeaders ((jsSplitChar '\n' " ").headD "")).zip ["_"]).all
      (fun gw => normalizeKey gw.1 == normalizeKey gw.2) = true ∧
    enforceNotionHeaders " " Json.null ["_"] ≠ " " := by
  refine ⟨by decide, by decide, by decide, by decide⟩

/-- C2 (amended): for every CSV string that is non-empty *after trimming*
and every non-empty expected-header list, if the parsed first-line
headers agree with the expected headers in count and in normalized form
position by position, the reconciliation step returns the CSV string
unchanged. -/
theorem reconcile_unchanged (csv : String) (j : Json) (hs : List String)
    (hne : hs ≠ []) (htrim : jsTrim csv ≠ "")
    (hlen : (parseCSVHeaders ((jsSplitChar '\n' csv).headD "")).length = hs.length)
    (hmatch : ((parseCSVHeaders ((jsSplitChar '\n' csv).headD "")).zip hs).all
        (fun gw => normalizeKey gw.1 == normalizeKey gw.2) = true) :
    enforceNotionHeaders csv j hs = csv := by
  have hcsv : csv ≠ "" := by
    intro h
    rw [h] at htrim
    exact htrim rfl
  have hlen0 : (hs.length == 0) = false := by
    simp [List.length_eq_zero, hne]
  have h1 : jsTruthy csv = true := by simp [jsTruthy, hcsv]
  have h2 : jsTruthy (jsTrim csv) = true := by simp [jsTruthy, htrim]
  have hok : ((parseCSVHeaders ((jsSplitChar '\n' csv).headD "")).length == hs.length &&
      ((parseCSVHeaders ((jsSplitChar '\n' csv).headD "")).zip hs).all
        (fun gw => normalizeKey gw.1 == normalizeKey gw.2)) = true := by
    rw [hmatch, hlen]
    simp
  simp only [enforceNotionHeaders, hlen0, h1, h2, hok]
  simp

/-- C2 witness: a CSV whose header row matches the expected headers up to
case and spacing is returned byte-for-byte unchanged. -/
theorem reconcile_unchanged_witness :
    ("Name , AGE\nBob,30" : String) ≠ "" ∧
    jsTrim "Name , AGE\nBob,30" ≠ "" ∧
    enforceNotionHeaders "Name , AGE\nBob,30" Json.null ["name", "age"]
      = "Name , AGE\nBob,30" :=
  ⟨by decide, by decide,
   reconcile_unchanged "Name , AGE\nBob,30" Json.null ["name", "age"]
     (by decide) (by decide) (by decide) (by decide)⟩

/-! ### C7: encrypt/decrypt round trip -/

theorem b64Index_char_fin : ∀ s : Fin 64, b64Index (b64Char s.val) = some s.val := by
  decide

theorem b64Index_char (s : Nat) (h : s < 64) : b64Index (b64Char s) = some s :=
  b64Index_char_fin ⟨s, h⟩

theorem b64Char_ne_pad_fin : ∀ s : Fin 64, (b64Char s.val == '=') = false := by
  decide

theorem b64Char_ne_pad (s : Nat) (h : s < 64) : (b64Char s == '=') = false :=
  b64Char_ne_pad_fin ⟨s, h⟩

/-- Decoding inverts encoding on lists of bytes. -/
theorem b64_roundtrip : ∀ (l : List Nat), (∀ b ∈ l, b < 256) →
    b64decode (b64encode l) = some l
  | [], _ => rfl
  | [b1], h => by
    have hb1 : b1 < 256 := h b1 (by simp)
    have h1 : b1 / 4 < 64 := by omega
    have h2 : b1 % 4 * 16 < 64 := by omega
    simp [b64encode, b64decode, b64Index_char _ h1, b64Index_char _ h2]
    omega
  | [b1, b2], h => by
    have hb1 : b1 < 256 := h b1 (by simp)
    have hb2 : b2 < 256 := h b2 (by simp)
    have h1 : b1 / 4 < 64 := by omega
    have h2 : b1 % 4 * 16 + b2 / 16 < 64 := by omega
    have h3 : b2 % 16 * 4 < 64 := by omega
    simp [b64encode, b64decode, b64Char_ne_pad _ h3,
      b64Index_char _ h1, b64Index_char _ h2, b64Index_char _ h3]
    omega
  | b1 :: b2 :: b3 :: rest, h => by
    have hb1 : b1 < 256 := h b1 (by simp)
    have hb2 : b2 < 256 := h b2 (by simp)
    have hb3 : b3 < 256 := h b3 (by simp)
    have h1 : b1 / 4 < 64 := by omega
    have h2 : b1 % 4 * 16 + b2 / 16 < 64 := by omega
    have h3 : b2 % 16 * 4 + b3 / 64 < 64 := by omega
    have h4 : b3 % 64 < 64 := by omega
    have ih := b64_roundtrip rest (fun b hb => h b (by simp [hb]))
    simp [b64encode, b64decode, b64Char_ne_pad _ h3, b64Char_ne_pad _ h4,
      b64Index_char _ h1, b64Index_char _ h2, b64Index_char _ h3,
      b64Index_char _ h4, ih]
    refine ⟨by omega, by omega, by omega⟩

/-- Encoding a non-empty byte list yields a non-empty string. -/
theorem b64encode_ne_nil : ∀ (l : List Nat), l ≠ [] → b64encode l ≠ []
  | [], h => absurd rfl h
  | [_], _ => by simp [b64encode]
  | [_, _], _ => by simp [b64encode]
  | _ :: _ :: _ :: _, _ => by simp [b64encode]

/-- C7: for every non-empty plaintext and non-empty secret, and every model
of the platform crypto that round-trips at this input (AES-GCM decryption
inverts encryption, ciphertext/salt/IV are bytes, the text decoder inverts
the text encoder on this plaintext, salt is 16 bytes and IV 12 bytes),
decrypting the output of `encryptData` with the same secret returns the
original plaintext exactly. -/
theorem encrypt_decrypt_roundtrip (M : GcmModel) (plaintext secret : String)
    (salt iv : List Nat)
    (hp : plaintext ≠ "") (hs : secret ≠ "")
    (hsalt : salt.length = 16) (hiv : iv.length = 12)
    (hbytes : ∀ b ∈ salt ++ iv ++
        M.encrypt (M.deriveKey (M.encode secret) salt) iv (M.encode plaintext), b < 256)
    (hdec : M.decrypt (M.deriveKey (M.encode secret) salt) iv
        (M.encrypt (M.deriveKey (M.encode secret) salt) iv (M.encode plaintext))
        = some (M.encode plaintext))
    (htext : M.decode (M.encode plaintext) = plaintext) :
    ∃ blob, encryptData M plaintext secret salt iv = some blob ∧
      decryptData M blob secret = some plaintext := by
  set key := M.deriveKey (M.encode secret) salt with hkey
  set ct := M.encrypt key iv (M.encode plaintext) with hct
  have hcomb_ne : salt ++ iv ++ ct ≠ [] := by
    intro hnil
    have : (salt ++ iv ++ ct).length = 0 := by rw [hnil]; rfl
    simp [hsalt, hiv] at this
  refine ⟨⟨b64encode (salt ++ iv ++ ct)⟩, ?_, ?_⟩
  · simp [encryptData, hp, hs]
  · have hblob_ne : (⟨b64encode (salt ++ iv ++ ct)⟩ : String) ≠ "" := by
      intro hb
      exact b64encode_ne_nil _ hcomb_ne (congrArg String.data hb)
    have hrt : b64decode (b64encode (salt ++ iv ++ ct)) = some (salt ++ iv ++ ct) :=
      b64_roundtrip _ hbytes
    have htake : (salt ++ iv ++ ct).take 16 = salt := by
      rw [List.append_assoc, ← hsalt, List.take_left]
    have hdrop : (salt ++ iv ++ ct).drop 16 = iv ++ ct := by
      rw [List.append_assoc, ← hsalt, List.drop_left]
    have htake2 : ((salt ++ iv ++ ct).drop 16).take 12 = iv := by
      rw [hdrop, ← hiv, List.take_left]
    have hdrop2 : (salt ++ iv ++ ct).drop 28 = ct := by
      have h1 : ((salt ++ iv ++ ct).drop 16).drop 12 = (salt ++ iv ++ ct).drop 28 := by
        rw [List.drop_drop]
      rw [← h1, hdrop, ← hiv, List.drop_left]
    have hblob_ne2 : ({ data := b64encode (salt ++ (iv ++ ct)) } : String) ≠ "" := by
      rw [← List.append_assoc]
      exact hblob_ne
    simp only [decryptData, hrt, htake, htake2, hdrop2]
    rw [if_neg (by simp [hblob_ne, hblob_ne2, hs])]
    rw [hdec]
    simp [htext]

/-- A concrete instantiation of the platform-crypto model used to witness
the round-trip theorem (the cipher is the identity with trivial key
derivation, which satisfies the round-trip hypotheses at the chosen
input). -/
def gcmWitnessModel : GcmModel :=
  { deriveKey := fun _ _ => []
    encrypt := fun _ _ d => d
    decrypt := fun _ _ d => some d
    encode := fun s => s.data.map Char.toNat
    decode := fun l => ⟨l.map Char.ofNat⟩ }

/-- C7 witness: the round-trip theorem applied at a concrete plaintext,
secret, salt and IV, discharging every hypothesis. -/
theorem encrypt_decrypt_roundtrip_witness :
    ("ntn_key" : String) ≠ "" ∧ ("s3cr3t" : String) ≠ "" ∧
    (List.replicate 16 7).length = 16 ∧
    (List.replicate 12 9).length = 12 ∧
    gcmWitnessModel.decode (gcmWitnessModel.encode "ntn_key") = "ntn_key" ∧
    ∃ blob,
      encryptData gcmWitnessModel "ntn_key" "s3cr3t"
        (List.replicate 16 7) (List.replicate 12 9) = some blob ∧
      decryptData gcmWitnessModel blob "s3cr3t" = some "ntn_key" :=
  ⟨by decide, by decide, by decide, by decide, by decide,
   encrypt_decrypt_roundtrip gcmWitnessModel "ntn_key" "s3cr3t"
     (List.replicate 16 7) (List.replicate 12 9)
     (by decide) (by decide) (by decide) (by decide)
     (by decide) rfl (by decide)⟩

/-! ### C10: the document-id validator accepts exactly the v4 UUID shape -/

theorem takeHexN_sound : ∀ (n : Nat) (cs p r : List Char),
    takeHexN n cs = some (p, r) →
    cs = p ++ r ∧ p.length = n ∧ ∀ c ∈ p, isHexLower c = true := by
  intro n
  induction n with
  | zero =>
    intro cs p r h
    simp only [takeHexN, Option.some.injEq, Prod.mk.injEq] at h
    obtain ⟨hp, hr⟩ := h
    subst hp
    subst hr
    simp
  | succ n ih =>
    intro cs p r h
    cases cs with
    | nil => simp [takeHexN] at h
    | cons c cs' =>
      simp only [takeHexN] at h
      cases hc : isHexLower c with
      | false => rw [hc] at h; simp at h
      | true =>
        rw [hc] at h
        simp only [if_true] at h
        cases htk : takeHexN n cs' with
        | none => rw [htk] at h; simp at h
        | some pr =>
          obtain ⟨p', r'⟩ := pr
          rw [htk] at h
          simp only [Option.some.injEq, Prod.mk.injEq] at h
          obtain ⟨hp, hr⟩ := h
          subst hp
          subst hr
          obtain ⟨he, hl, hx⟩ := ih cs' p' r' htk
          subst he
          refine ⟨rfl, by simp [hl], ?_⟩
          intro d hd
          rcases List.mem_cons.mp hd with h | h
          · subst h; exact hc
          · exact hx d h

theorem takeHexN_complete : ∀ (p r : List Char),
    (∀ c ∈ p, isHexLower c = true) →
    takeHexN p.length (p ++ r) = some (p, r) := by
  intro p
  induction p with
  | nil => intro r _; simp [takeHexN]
  | cons c p' ih =>
    intro r hall
    have hc : isHexLower c = true := hall c (by simp)
    simp [takeHexN, hc, ih r (fun x hx => hall x (by simp [hx]))]

theorem skipDash_dash (r : List Char) : skipDash ('-' :: r) = r := by
  simp [skipDash]

theorem skipDash_cons_hex (c : Char) (r : List Char) (h : isHexLower c = true) :
    skipDash (c :: r) = c :: r := by
  have hc : (c == '-') = false := by
    cases hcc : (c == '-') with
    | false => rfl
    | true =>
      have : c = '-' := by simpa using hcc
      subst this
      exact absurd h (by decide)
  simp [skipDash, hc]

theorem skipDash_split (cs : List Char) :
    ∃ s, (s = [] ∨ s = ['-']) ∧ cs = s ++ skipDash cs := by
  cases cs with
  | nil => exact ⟨[], Or.inl rfl, rfl⟩
  | cons c r =>
    cases hc : (c == '-') with
    | true =>
      have : c = '-' := by simpa using hc
      subst this
      exact ⟨['-'], Or.inr rfl, by simp [skipDash]⟩
    | false => exact ⟨[], Or.inl rfl, by simp [skipDash, hc]⟩

theorem skipDash_append_group (s g r : List Char) (hs : s = [] ∨ s = ['-'])
    (hg : g ≠ []) (hhex : ∀ c ∈ g, isHexLower c = true) :
    skipDash (s ++ (g ++ r)) = g ++ r := by
  cases g with
  | nil => exact absurd rfl hg
  | cons b g' =>
    have hb : isHexLower b = true := hhex b (by simp)
    rcases hs with h | h
    · subst h
      simpa using skipDash_cons_hex b (g' ++ r) hb
    · subst h
      simpa using skipDash_dash (b :: g' ++ r)

/-- The version-4 UUID shape of the claim: five hex groups of lengths
8/4/4/4/12 (32 hex digits in all), each of the four separators
independently empty or a hyphen, the 13th hex digit (the head of the
third group) `'4'`, and the 17th (the head of the fourth group) one of
`'8','9','a','b'`. -/
def v4Shape (cs : List Char) : Prop :=
  ∃ g1 s1 g2 s2 g3 s3 g4 s4 g5 : List Char,
    cs = g1 ++ s1 ++ g2 ++ s2 ++ g3 ++ s3 ++ g4 ++ s4 ++ g5 ∧
    (s1 = [] ∨ s1 = ['-']) ∧ (s2 = [] ∨ s2 = ['-']) ∧
    (s3 = [] ∨ s3 = ['-']) ∧ (s4 = [] ∨ s4 = ['-']) ∧
    g1.length = 8 ∧ g2.length = 4 ∧ g3.length = 4 ∧ g4.length = 4 ∧
    g5.length = 12 ∧
    (∀ c ∈ g1 ++ g2 ++ g3 ++ g4 ++ g5, isHexLower c = true) ∧
    g3.head? = some '4' ∧
    (∃ c, g4.head? = some c ∧ (c = '8' ∨ c = '9' ∨ c = 'a' ∨ c = 'b'))

theorem uuidV4Match_sound (cs : List Char) (h : uuidV4Match cs = true) :
    v4Shape cs := by
  unfold uuidV4Match at h
  split at h
  · simp at h
  rename_i p1 r1 h8
  split at h
  · simp at h
  rename_i p2 r2 h4
  split at h
  · simp at h
  rename_i c3 r3 hsd2
  split at h
  case isFalse => simp at h
  rename_i hc3
  split at h
  · simp at h
  rename_i p3 r4 h3
  split at h
  · simp at h
  rename_i c4 r5 hsd4
  split at h
  case isFalse => simp at h
  rename_i hc4
  split at h
  · simp at h
  rename_i p4 r6 h3b
  split at h
  case h_2 => simp at h
  rename_i p5 r7 h12
  have hr7 : r7 = [] := by simpa using h
  subst hr7
  obtain ⟨e1, l1, x1⟩ := takeHexN_sound 8 cs p1 r1 h8
  obtain ⟨e2, l2, x2⟩ := takeHexN_sound 4 (skipDash r1) p2 r2 h4
  obtain ⟨e3, l3, x3⟩ := takeHexN_sound 3 r3 p3 r4 h3
  obtain ⟨e4, l4, x4⟩ := takeHexN_sound 3 r5 p4 r6 h3b
  obtain ⟨e5, l5, x5⟩ := takeHexN_sound 12 (skipDash r6) p5 [] h12
  obtain ⟨s1, hs1, hsp1⟩ := skipDash_split r1
  obtain ⟨s2, hs2, hsp2⟩ := skipDash_split r2
  obtain ⟨s3, hs3, hsp3⟩ := skipDash_split r4
  obtain ⟨s4, hs4, hsp4⟩ := skipDash_split r6
  have hc3' : c3 = '4' := by simpa using hc3
  subst hc3'
  have hc4' : c4 = '8' ∨ c4 = '9' ∨ c4 = 'a' ∨ c4 = 'b' := by
    have h' := (by simpa using hc4 : ((c4 = '8' ∨ c4 = '9') ∨ c4 = 'a') ∨ c4 = 'b')
    tauto
  have hx4 : isHexLower c4 = true := by
    rcases hc4' with h' | h' | h' | h' <;> (subst h'; decide)
  refine ⟨p1, s1, p2, s2, '4' :: p3, s3, c4 :: p4, s4, p5,
    ?_, hs1, hs2, hs3, hs4, l1, l2, by simp [l3], by simp [l4], l5,
    ?_, rfl, ⟨c4, rfl, hc4'⟩⟩
  · rw [e1, hsp1, e2, hsp2, hsd2, e3, hsp3, hsd4, e4, hsp4, e5]
    simp [List.append_assoc]
  · intro d hd
    simp only [List.append_assoc, List.cons_append, List.mem_append,
      List.mem_cons] at hd
    rcases hd with hd | hd | hd | hd | hd | hd | hd
    · exact x1 d hd
    · exact x2 d hd
    · subst hd; decide
    · exact x3 d hd
    · subst hd; exact hx4
    · exact x4 d hd
    · exact x5 d hd

theorem uuidV4Match_complete (cs : List Char) (h : v4Shape cs) :
    uuidV4Match cs = true := by
  obtain ⟨g1, s1, g2, s2, g3, s3, g4, s4, g5, hcs, hs1, hs2, hs3, hs4,
    l1, l2, l3, l4, l5, hhex, hg3, c, hg4, hc⟩ := h
  have hx1 : ∀ d ∈ g1, isHexLower d = true := fun d hd => hhex d (by simp [hd])
  have hx2 : ∀ d ∈ g2, isHexLower d = true := fun d hd => hhex d (by simp [hd])
  have hx3 : ∀ d ∈ g3, isHexLower d = true := fun d hd => hhex d (by simp [hd])
  have hx4 : ∀ d ∈ g4, isHexLower d = true := fun d hd => hhex d (by simp [hd])
  have hx5 : ∀ d ∈ g5, isHexLower d = true := fun d hd => hhex d (by simp [hd])
  have hg2ne : g2 ≠ [] := by intro e; rw [e] at l2; simp at l2
  have hg5ne : g5 ≠ [] := by intro e; rw [e] at l5; simp at l5
  obtain ⟨a3, t3, rfl⟩ : ∃ a t, g3 = a :: t := by
    cases g3 with
    | nil => simp at hg3
    | cons a t => exact ⟨a, t, rfl⟩
  have ha3 : a3 = '4' := by simpa using hg3
  subst ha3
  obtain ⟨a4, t4, rfl⟩ : ∃ a t, g4 = a :: t := by
    cases g4 with
    | nil => simp at hg4
    | cons a t => exact ⟨a, t, rfl⟩
  have ha4 : a4 = c := by simpa using hg4
  subst ha4
  have hcbool : (a4 == '8' || a4 == '9' || a4 == 'a' || a4 == 'b') = true := by
    rcases hc with h' | h' | h' | h' <;> simp [h']
  have lt3 : t3.length = 3 := by simpa using l3
  have lt4 : t4.length = 3 := by simpa using l4
  have hxt3 : ∀ d ∈ t3, isHexLower d = true := fun d hd => hx3 d (by simp [hd])
  have hxt4 : ∀ d ∈ t4, isHexLower d = true := fun d hd => hx4 d (by simp [hd])
  subst hcs
  simp only [List.append_assoc, List.cons_append]
  have e1 : takeHexN 8
      (g1 ++ (s1 ++ (g2 ++ (s2 ++ ('4' :: (t3 ++ (s3 ++ (a4 :: (t4 ++ (s4 ++ g5))))))))))
      = some (g1, s1 ++ (g2 ++ (s2 ++ ('4' :: (t3 ++ (s3 ++ (a4 :: (t4 ++ (s4 ++ g5))))))))) := by
    rw [← l1]
    exact takeHexN_complete g1 _ hx1
  have e2 : skipDash (s1 ++ (g2 ++ (s2 ++ ('4' :: (t3 ++ (s3 ++ (a4 :: (t4 ++ (s4 ++ g5)))))))))
      = g2 ++ (s2 ++ ('4' :: (t3 ++ (s3 ++ (a4 :: (t4 ++ (s4 ++ g5))))))) :=
    skipDash_append_group s1 g2 _ hs1 hg2ne hx2
  have e3 : takeHexN 4 (g2 ++ (s2 ++ ('4' :: (t3 ++ (s3 ++ (a4 :: (t4 ++ (s4 ++ g5))))))))
      = some (g2, s2 ++ ('4' :: (t3 ++ (s3 ++ (a4 :: (t4 ++ (s4 ++ g5))))))) := by
    rw [← l2]
    exact takeHexN_complete g2 _ hx2
  have e4 : skipDash (s2 ++ ('4' :: (t3 ++ (s3 ++ (a4 :: (t4 ++ (s4 ++ g5)))))))
      = '4' :: (t3 ++ (s3 ++ (a4 :: (t4 ++ (s4 ++ g5))))) := by
    have := skipDash_append_group s2 ('4' :: t3) (s3 ++ (a4 :: (t4 ++ (s4 ++ g5))))
      hs2 (by simp) hx3
    simpa using this
  have e5 : takeHexN 3 (t3 ++ (s3 ++ (a4 :: (t4 ++ (s4 ++ g5)))))
      = some (t3, s3 ++ (a4 :: (t4 ++ (s4 ++ g5)))) := by
    rw [← lt3]
    exact takeHexN_complete t3 _ hxt3
  have e6 : skipDash (s3 ++ (a4 :: (t4 ++ (s4 ++ g5)))) = a4 :: (t4 ++ (s4 ++ g5)) := by
    have := skipDash_append_group s3 (a4 :: t4) (s4 ++ g5) hs3 (by simp) hx4
    simpa using this
  have e7 : takeHexN 3 (t4 ++ (s4 ++ g5)) = some (t4, s4 ++ g5) := by
    rw [← lt4]
    exact takeHexN_complete t4 _ hxt4
  have e8 : skipDash (s4 ++ g5) = g5 := by
    have := skipDash_append_group s4 g5 [] hs4 hg5ne hx5
    simpa using this
  have e9 : takeHexN 12 g5 = some (g5, ([] : List Char)) := by
    have h' := takeHexN_complete g5 [] hx5
    rw [l5] at h'
    simpa using h'
  simp [uuidV4Match, e1, e2, e3, e4, e5, e6, e7, e8, e9, hcbool]

theorem filter_hex_id (g : List Char) (h : ∀ d ∈ g, isHexLower d = true) :
    g.filter (fun c => c != '-') = g := by
  apply List.filter_eq_self.mpr
  intro a ha
  cases hb : (a == '-') with
  | true =>
    have : a = '-' := by simpa using hb
    subst this
    exact absurd (h '-' ha) (by decide)
  | false => simp [bne, hb]

theorem filter_sep_nil (s : List Char) (hs : s = [] ∨ s = ['-']) :
    s.filter (fun c => c != '-') = [] := by
  rcases hs with h | h <;> subst h <;> rfl

/-- A string of the v4 shape has no v4 shape violation hidden by hyphens:
once hyphens are stripped, its 13th hex digit (index 12) is `'4'` and its
17th (index 16) is one of `'8','9','a','b'`. -/
theorem v4Shape_digits (cs : List Char) (h : v4Shape cs) :
    (cs.filter (fun c => c != '-')).get? 12 = some '4' ∧
    ∃ c, (cs.filter (fun c => c != '-')).get? 16 = some c ∧
      (c = '8' ∨ c = '9' ∨ c = 'a' ∨ c = 'b') := by
  obtain ⟨g1, s1, g2, s2, g3, s3, g4, s4, g5, hcs, hs1, hs2, hs3, hs4,
    l1, l2, l3, l4, l5, hhex, hg3, c, hg4, hc⟩ := h
  have hx1 : ∀ d ∈ g1, isHexLower d = true := fun d hd => hhex d (by simp [hd])
  have hx2 : ∀ d ∈ g2, isHexLower d = true := fun d hd => hhex d (by simp [hd])
  have hx3 : ∀ d ∈ g3, isHexLower d = true := fun d hd => hhex d (by simp [hd])
  have hx4 : ∀ d ∈ g4, isHexLower d = true := fun d hd => hhex d (by simp [hd])
  have hx5 : ∀ d ∈ g5, isHexLower d = true := fun d hd => hhex d (by simp [hd])
  subst hcs
  have hfil : ((g1 ++ s1 ++ g2 ++ s2 ++ g3 ++ s3 ++ g4 ++ s4 ++ g5).filter
      (fun c => c != '-')) = g1 ++ (g2 ++ (g3 ++ (g4 ++ g5))) := by
    simp only [List.filter_append, filter_hex_id g1 hx1, filter_hex_id g2 hx2,
      filter_hex_id g3 hx3, filter_hex_id g4 hx4, filter_hex_id g5 hx5,
      filter_sep_nil s1 hs1, filter_sep_nil s2 hs2, filter_sep_nil s3 hs3,
      filter_sep_nil s4 hs4, List.append_nil, List.nil_append, List.append_assoc]
  rw [hfil]
  have h12 : (g1 ++ (g2 ++ (g3 ++ (g4 ++ g5)))).get? 12 = g3.head? := by
    rw [List.get?_append_right (by omega : g1.length ≤ 12)]
    rw [l1]
    rw [List.get?_append_right (by omega : g2.length ≤ 12 - 8)]
    rw [l2]
    rw [List.get?_append (by omega : 12 - 8 - 4 < g3.length)]
    rw [show (12 - 8 - 4 : Nat) = 0 by rfl]
    exact List.get?_zero g3
  have h16 : (g1 ++ (g2 ++ (g3 ++ (g4 ++ g5)))).get? 16 = g4.head? := by
    rw [List.get?_append_right (by omega : g1.length ≤ 16)]
    rw [l1]
    rw [List.get?_append_right (by omega : g2.length ≤ 16 - 8)]
    rw [l2]
    rw [List.get?_append_right (by omega : g3.length ≤ 16 - 8 - 4)]
    rw [l3]
    rw [List.get?_append (by omega : 16 - 8 - 4 - 4 < g4.length)]
    rw [show (16 - 8 - 4 - 4 : Nat) = 0 by rfl]
    exact List.get?_zero g4
  exact ⟨by rw [h12, hg3], ⟨c, by rw [h16, hg4], hc⟩⟩

/-- The v4 shape forces at least 32 characters; in particular the empty
string does not have it. -/
theorem v4Shape_length (cs : List Char) (h : v4Shape cs) : 32 ≤ cs.length := by
  obtain ⟨g1, s1, g2, s2, g3, s3, g4, s4, g5, hcs, _, _, _, _,
    l1, l2, l3, l4, l5, _, _, _⟩ := h
  have := congrArg List.length hcs
  simp [List.length_append, l1, l2, l3, l4, l5] at this
  omega

/-- C10: the document-identifier validator accepts exactly the strings
whose trimmed, lowercased form has the version-4 UUID shape — 32 hex
digits in groups of 8/4/4/4/12 with each standard hyphen independently
optional — and on every accepted string the 13th hex digit (hyphens
stripped) is '4' and the 17th is one of '8', '9', 'a', 'b'; every other
string, well-formed UUIDs of other versions included, is rejected. -/
theorem uuid_validator_v4_only (s : String) :
    ((validateUUID s).valid = true ↔ v4Shape (lowerStr (jsTrim s)).data) ∧
    ((validateUUID s).valid = true →
      ((lowerStr (jsTrim s)).data.filter (fun c => c != '-')).get? 12 = some '4' ∧
      ∃ c, ((lowerStr (jsTrim s)).data.filter (fun c => c != '-')).get? 16 = some c ∧
        (c = '8' ∨ c = '9' ∨ c = 'a' ∨ c = 'b')) := by
  have hvalid : (validateUUID s).valid = uuidV4Match (lowerStr (jsTrim s)).data := by
    by_cases hs : s = ""
    · subst hs
      decide
    · simp only [validateUUID, if_neg hs]
      split
      · rename_i h
        simp [h]
      · rename_i h
        simp only [Bool.not_eq_true] at h
        simp [h]
  constructor
  · rw [hvalid]
    exact ⟨fun h => uuidV4Match_sound _ h, fun h => uuidV4Match_complete _ h⟩
  · intro hv
    exact v4Shape_digits _ (uuidV4Match_sound _ (hvalid ▸ hv))

/-- C10 witness: the characterization applied at a concrete accepted
version-4 UUID, discharging the hypothesis of the digit-position part. -/
theorem uuid_validator_v4_only_witness :
    (validateUUID "123e4567-e89b-42d3-a456-426614174000").valid = true ∧
    ((lowerStr (jsTrim "123e4567-e89b-42d3-a456-426614174000")).data.filter
        (fun c => c != '-')).get? 12 = some '4' ∧
    v4Shape (lowerStr (jsTrim "123e4567-e89b-42d3-a456-426614174000")).data :=
  ⟨by decide,
   ((uuid_validator_v4_only "123e4567-e89b-42d3-a456-426614174000").2 (by decide)).1,
   (uuid_validator_v4_only "123e4567-e89b-42d3-a456-426614174000").1.mp (by decide)⟩

/-! ### C3: ownership gate -/

theorem validateUUID_sanitized_truthy (s : String)
    (h : (validateUUID s).valid = true) :
    jsTruthy (validateUUID s).sanitized = true := by
  by_cases hs : s = ""
  · subst hs
    exact absurd h (by decide)
  · simp only [validateUUID, if_neg hs] at h ⊢
    split at h
    · rename_i hm
      have hlen := v4Shape_length _ (uuidV4Match_sound _ hm)
      have hne : (lowerStr (jsTrim s)).data ≠ [] := by
        intro e
        rw [e] at hlen
        simp at hlen
      rw [if_pos hm]
      simp only [jsTruthy]
      simp only [decide_eq_true_eq]
      intro hstr
      exact hne (congrArg String.data hstr)
    · simp at h

/-- C3: if the authenticated caller differs from the document's owner, the
run fails with the authorization error, the failure is audited as an
unauthorized-access security event, and no row of the documents table is
mutated (the only update the run issues is blocked by row-level
security, which is modelled from the spec in `applyDocUpdates`). -/
theorem ownership_gate (inp : HandlerInput) (d : String) (doc : DocRow) (u : String)
    (hrate : (checkRateLimit inp.rateState inp.ip 50 60000 inp.now).1.allowed = true)
    (hb : inp.body_documentId = some d)
    (hv : (validateUUID d).valid = true)
    (hdb : inp.db (validateUUID d).sanitized = some doc)
    (hu : inp.authUser = some u)
    (hne : doc.user_id ≠ u) :
    (processDocument inp).1 = ⟨500, RespBody.err "Unauthorized"⟩ ∧
    unauthorizedAudit ∈ (processDocument inp).2.audits ∧
    finalDocs inp = inp.db := by
  have hne' : (doc.user_id != u) = true := by simp [hne]
  have hsan : jsTruthy (validateUUID d).sanitized = true :=
    validateUUID_sanitized_truthy d hv
  have hmb : mainBody inp = (Sum.inl "Unauthorized",
      { documentIdVar := some (validateUUID d).sanitized,
        docUpdates := [], audits := [unauthorizedAudit],
        aiCalled := false, inserted := [] }) := by
    simp [mainBody, hrate, hb, hv, hdb, hu, hne', emptyEffects, addAudit]
  have hpd : processDocument inp = (⟨500, RespBody.err "Unauthorized"⟩,
      { documentIdVar := some (validateUUID d).sanitized,
        docUpdates := [⟨(validateUUID d).sanitized, "error",
          some (strTake "Unauthorized" 500)⟩],
        audits := [unauthorizedAudit, catchAudit],
        aiCalled := false, inserted := [] }) := by
    simp [processDocument, hmb, jsTruthyO, hsan, addAudit, addUpdate]
  refine ⟨by rw [hpd], by rw [hpd]; simp, ?_⟩
  rw [finalDocs, hpd]
  funext k
  simp only [applyDocUpdates, List.foldl]
  cases hk : inp.db k with
  | none => rfl
  | some row =>
    simp only [hu]
    cases hkk : (k == (validateUUID d).sanitized) with
    | false => simp [hkk]
    | true =>
      have hks : k = (validateUUID d).sanitized := by simpa using hkk
      rw [hks] at hk
      have hrow : row = doc := by
        have := hdb.symm.trans hk
        exact (Option.some.injEq _ _ ▸ this).symm
      subst hrow
      have hbeq : (row.user_id == u) = false := beq_eq_false_iff_ne.mpr hne
      simp [hkk, hbeq]

/-! ### Concrete run fixtures shared by the handler theorems -/

def wId : String := "aaaaaaaa-aaaa-4aaa-8aaa-aaaaaaaaaaaa"

def wDoc : DocRow :=
  { id := wId, user_id := "owner", filename := some "scan.pdf",
    file_url := "https://example.supabase.co/storage/v1/object/public/documents/scan.pdf",
    file_type := some "application/pdf", file_size := 100,
    source_id := none, status := "pending", error_message := none }

/-- A run in which every external interaction succeeds. -/
def wInput : HandlerInput :=
  { rateState := fun _ => none, ip := "203.0.113.9", now := 0,
    body_documentId := some wId,
    db := fun k => if k == wId then some wDoc else none,
    authUser := some "owner",
    env := { encryptionSecret := none, notionApiKey := none,
             geminiApiKey := some "AIzaTest" },
    settingsFetchError := false, userSettingsKey := none, decryptResult := none,
    schemaHeaders := none, fileFetchOk := true, fallbackStatus := 0,
    fallbackText := "",
    pdfExtract := some "extracted text", docxExtract := none,
    aiOutcome := AiOutcome.ok (Json.obj []) "md" "Content\nrow",
    insertOk := true }

/-- C3 witness: the ownership-gate theorem applied at a concrete run whose
caller (`mallory`) is not the document's owner (`owner`), discharging
every hypothesis. -/
theorem ownership_gate_witness :
    wDoc.user_id ≠ "mallory" ∧
    (processDocument { wInput with authUser := some "mallory" }).1
      = ⟨500, RespBody.err "Unauthorized"⟩ ∧
    unauthorizedAudit ∈ (processDocument { wInput with authUser := some "mallory" }).2.audits ∧
    finalDocs { wInput with authUser := some "mallory" }
      = ({ wInput with authUser := some "mallory" } : HandlerInput).db := by
  have h := ownership_gate { wInput with authUser := some "mallory" } wId wDoc "mallory"
    (by decide) rfl (by decide) (by decide) rfl (by decide)
  exact ⟨by decide, h.1, h.2.1, h.2.2⟩

/-! ### C4: HTTP status of validation failures -/

/-- A stored document whose declared MIME type is not in the allow-list. -/
def wDocBadType : DocRow := { wDoc with file_type := some "text/plain" }

/-- A stored document whose `source_id` fails the format check. -/
def wDocBadSource : DocRow := { wDoc with source_id := some "zzz" }

/-- C4: the claim says all three validation failures produce a 400
response with `{ error }`.  The code disagrees on every branch: an
invalid document id and a disallowed MIME type are thrown and surface
through the catch-all handler as **500** (the repository's own
SECURITY.md expects 400 here), and the invalid-`source_id` 400 response
is unreachable because `if (!validateSourceId(sourceId))` tests the
always-truthy result *object* instead of its `.valid` field, so that run
proceeds and completes with **200**. -/
theorem validation_status_divergence :
    (validateUUID "not-a-uuid").valid = false ∧
    (processDocument { wInput with body_documentId := some "not-a-uuid" }).1
      = ⟨500, RespBody.err "Invalid UUID format"⟩ ∧
    (validateFileType (some "text/plain")).valid = false ∧
    (processDocument { wInput with
        db := fun k => if k == wId then some wDocBadType else none }).1
      = ⟨500, RespBody.err "File type text/plain not allowed"⟩ ∧
    (validateSourceId "zzz").valid = false ∧
    (processDocument { wInput with
        db := fun k => if k == wId then some wDocBadSource else none }).1
      = ⟨200, RespBody.success⟩ := by
  exact ⟨by decide, by decide, by decide, by decide, by decide, by decide⟩

/-! ### C5: document writes on pre-`processing` validation failures -/

/-- A stored document with an empty file. -/
def wDocEmpty : DocRow := { wDoc with file_size := 0 }

/-- A run over the empty-file document, caller = owner. -/
def wInputEmpty : HandlerInput :=
  { wInput with db := fun k => if k == wId then some wDocEmpty else none }

/-- C5 counterexample: the file-size validation fails before the
`processing` mark — indeed the run's only document update is the error
write, the status is never set to `processing` — yet the claim's
"status and error_message are not written at all" is violated: the
catch-all error path writes `status = 'error'` and the message to the
row. -/
theorem premark_no_write_cex :
    (validateFileSize wDocEmpty.file_size 20).valid = false ∧
    (processDocument wInputEmpty).2.docUpdates
      = [⟨wId, "error", some "File is empty"⟩] ∧
    finalDocs wInputEmpty wId
      = some { wDocEmpty with
          status := "error"
          error_message := some "File is empty" } := by
  exact ⟨by decide, by decide, by decide⟩

/-- C5 (amended): a file-size or file-type validation failure — although
it occurs before the `processing` mark — does write `status = 'error'`
and the (truncated) validation message to the document row through the
catch-all error path; only an invalid-document-id failure leaves every
row unwritten, because the id it would write to matches no row. -/
theorem premark_error_writes :
    (∀ (inp : HandlerInput) (d : String) (doc : DocRow),
      (checkRateLimit inp.rateState inp.ip 50 60000 inp.now).1.allowed = true →
      inp.body_documentId = some d →
      (validateUUID d).valid = true →
      inp.db (validateUUID d).sanitized = some doc →
      inp.authUser = some doc.user_id →
      (validateFileSize doc.file_size 20).valid = false →
      finalDocs inp (validateUUID d).sanitized
        = some { doc with
            status := "error"
            error_message := some (strTake
              ((validateFileSize doc.file_size 20).error.getD "undefined") 500) }) ∧
    (∀ (inp : HandlerInput) (d : String) (doc : DocRow),
      (checkRateLimit inp.rateState inp.ip 50 60000 inp.now).1.allowed = true →
      inp.body_documentId = some d →
      (validateUUID d).valid = true →
      inp.db (validateUUID d).sanitized = some doc →
      inp.authUser = some doc.user_id →
      (validateFileSize doc.file_size 20).valid = true →
      (validateFileType doc.file_type).valid = false →
      finalDocs inp (validateUUID d).sanitized
        = some { doc with
            status := "error"
            error_message := some (strTake
              ((validateFileType doc.file_type).error.getD "undefined") 500) }) ∧
    (∀ (inp : HandlerInput) (d : String),
      (checkRateLimit inp.rateState inp.ip 50 60000 inp.now).1.allowed = true →
      inp.body_documentId = some d →
      (validateUUID d).valid = false →
      inp.db d = none →
      finalDocs inp = inp.db) := by
  refine ⟨?_, ?_, ?_⟩
  · intro inp d doc hrate hb hv hdb hu hsize
    have hsan := validateUUID_sanitized_truthy d hv
    have hmb : mainBody inp =
        (Sum.inl ((validateFileSize doc.file_size 20).error.getD "undefined"),
        { documentIdVar := some (validateUUID d).sanitized, docUpdates := [],
          audits := [], aiCalled := false, inserted := [] }) := by
      simp [mainBody, hrate, hb, hv, hdb, hu, hsize, emptyEffects]
    have hpd : (processDocument inp).2.docUpdates =
        [⟨(validateUUID d).sanitized, "error",
          some (strTake ((validateFileSize doc.file_size 20).error.getD "undefined") 500)⟩] := by
      simp [processDocument, hmb, jsTruthyO, hsan, addUpdate, addAudit]
    rw [finalDocs, hpd]
    simp only [applyDocUpdates, List.foldl]
    simp [hdb, hu]
  · intro inp d doc hrate hb hv hdb hu hsize htype
    have hsan := validateUUID_sanitized_truthy d hv
    have hmb : mainBody inp =
        (Sum.inl ((validateFileType doc.file_type).error.getD "undefined"),
        { documentIdVar := some (validateUUID d).sanitized, docUpdates := [],
          audits := [], aiCalled := false, inserted := [] }) := by
      simp [mainBody, hrate, hb, hv, hdb, hu, hsize, htype, emptyEffects]
    have hpd : (processDocument inp).2.docUpdates =
        [⟨(validateUUID d).sanitized, "error",
          some (strTake ((validateFileType doc.file_type).error.getD "undefined") 500)⟩] := by
      simp [processDocument, hmb, jsTruthyO, hsan, addUpdate, addAudit]
    rw [finalDocs, hpd]
    simp only [applyDocUpdates, List.foldl]
    simp [hdb, hu]
  · intro inp d hrate hb hv hnd
    have hmb : mainBody inp =
        (Sum.inl ((validateUUID d).error.getD "Invalid document ID"),
        { documentIdVar := some d, docUpdates := [],
          audits := [invalidIdAudit], aiCalled := false, inserted := [] }) := by
      simp [mainBody, hrate, hb, hv, emptyEffects, addAudit]
    by_cases hd : d = ""
    · subst hd
      have hpd : (processDocument inp).2.docUpdates = [] := by
        simp [processDocument, hmb, jsTruthyO, jsTruthy]
      rw [finalDocs, hpd]
      rfl
    · have hpd : (processDocument inp).2.docUpdates =
          [⟨d, "error",
            some (strTake ((validateUUID d).error.getD "Invalid document ID") 500)⟩] := by
        simp [processDocument, hmb, jsTruthyO, jsTruthy, hd, addUpdate, addAudit]
      rw [finalDocs, hpd]
      funext k
      simp only [applyDocUpdates, List.foldl]
      cases hk : inp.db k with
      | none => rfl
      | some row =>
        cases hkk : (k == d) with
        | false => simp [hkk]
        | true =>
          have : k = d := by simpa using hkk
          rw [this, hnd] at hk
          exact absurd hk (by simp)

/-- C5 witness: the amended theorem applied at three concrete runs —
empty file, disallowed MIME type, invalid document id — discharging all
hypotheses. -/
theorem premark_error_writes_witness :
    (validateFileSize wDocEmpty.file_size 20).valid = false ∧
    finalDocs wInputEmpty wId
      = some { wDocEmpty with
          status := "error"
          error_message := some "File is empty" } ∧
    (validateFileType wDocBadType.file_type).valid = false ∧
    finalDocs { wInput with db := fun k => if k == wId then some wDocBadType else none } wId
      = some { wDocBadType with
          status := "error"
          error_message := some "File type text/plain not allowed" } ∧
    (validateUUID "not-a-uuid").valid = false ∧
    finalDocs { wInput with body_documentId := some "not-a-uuid" }
      = ({ wInput with body_documentId := some "not-a-uuid" } : HandlerInput).db := by
  have h1 := premark_error_writes.1 wInputEmpty wId wDocEmpty
    (by decide) rfl (by decide) (by decide) rfl (by decide)
  have h2 := premark_error_writes.2.1
    { wInput with db := fun k => if k == wId then some wDocBadType else none }
    wId wDocBadType (by decide) rfl (by decide) (by decide) rfl (by decide) (by decide)
  have h3 := premark_error_writes.2.2
    { wInput with body_documentId := some "not-a-uuid" } "not-a-uuid"
    (by decide) rfl (by decide) (by decide)
  have hsw : (validateUUID wId).sanitized = wId := by decide
  rw [hsw] at h1 h2
  refine ⟨by decide, ?_, by decide, ?_, by decide, h3⟩
  · rw [h1]; decide
  · rw [h2]; decide

/-! ### C6: unsupported-type short circuit -/

theorem mainTail_unsupported (inp : HandlerInput) (doc : DocRow)
    (documentId : String) (headers : Option (List String)) (eff : Effects)
    (hg : jsTruthyO inp.env.geminiApiKey = true)
    (hf : inp.fileFetchOk = true)
    (hx : jsTruthyO (inlineTextOf inp doc) = false)
    (hi : isImageType doc = false) :
    mainTail inp doc documentId headers eff =
      (Sum.inr ⟨400, RespBody.err "Unsupported file type. Supported: images, PDFs, DOCX."⟩,
       addUpdate (addUpdate eff ⟨documentId, "processing", none⟩)
         ⟨documentId, "error",
          some (unsupportedMsg doc.file_type)⟩) := by
  simp [mainTail, hg, hf, hx, hi]

/-- C6: when local text extraction produced no text (`null` or `''`) and
the declared MIME type does not start with `image/`, the handler marks
the document `error` with the unsupported-file-type message, returns the
400 response, and the generative-AI endpoint is never called in that
run. -/
theorem unsupported_short_circuit (inp : HandlerInput) (d : String) (doc : DocRow)
    (hrate : (checkRateLimit inp.rateState inp.ip 50 60000 inp.now).1.allowed = true)
    (hb : inp.body_documentId = some d)
    (hv : (validateUUID d).valid = true)
    (hdb : inp.db (validateUUID d).sanitized = some doc)
    (hu : inp.authUser = some doc.user_id)
    (hsize : (validateFileSize doc.file_size 20).valid = true)
    (htype : (validateFileType doc.file_type).valid = true)
    (hg : jsTruthyO inp.env.geminiApiKey = true)
    (hf : inp.fileFetchOk = true)
    (hx : jsTruthyO (inlineTextOf inp doc) = false)
    (hi : isImageType doc = false) :
    (processDocument inp).1
      = ⟨400, RespBody.err "Unsupported file type. Supported: images, PDFs, DOCX."⟩ ∧
    (processDocument inp).2.aiCalled = false ∧
    finalDocs inp (validateUUID d).sanitized
      = some { doc with
          status := "error"
          error_message := some (unsupportedMsg doc.file_type) } := by
  have htail : ∀ (headers : Option (List String)) (eff : Effects),
      mainTail inp doc (validateUUID d).sanitized headers eff =
      (Sum.inr ⟨400, RespBody.err "Unsupported file type. Supported: images, PDFs, DOCX."⟩,
       addUpdate (addUpdate eff ⟨(validateUUID d).sanitized, "processing", none⟩)
         ⟨(validateUUID d).sanitized, "error",
          some (unsupportedMsg doc.file_type)⟩) :=
    fun headers eff => mainTail_unsupported inp doc (validateUUID d).sanitized headers eff hg hf hx hi
  obtain ⟨as, hmb⟩ : ∃ as, mainBody inp =
      (Sum.inr ⟨400, RespBody.err "Unsupported file type. Supported: images, PDFs, DOCX."⟩,
      { documentIdVar := some (validateUUID d).sanitized,
        docUpdates := [⟨(validateUUID d).sanitized, "processing", none⟩,
          ⟨(validateUUID d).sanitized, "error",
           some (unsupportedMsg doc.file_type)⟩],
        audits := as, aiCalled := false, inserted := [] }) := by
    cases hsrc : jsTruthyO doc.source_id with
    | false =>
      refine ⟨[startAudit], ?_⟩
      simp [mainBody, hrate, hb, hv, hdb, hu, hsize, htype, hsrc, emptyEffects,
        addAudit, addUpdate, htail]
    | true =>
      refine ⟨[startAudit] ++ (notionRest inp).1, ?_⟩
      simp [mainBody, hrate, hb, hv, hdb, hu, hsize, htype, hsrc, objTruthy,
        emptyEffects, addAudit, addUpdate, htail]
  have hpd : processDocument inp =
      (⟨400, RespBody.err "Unsupported file type. Supported: images, PDFs, DOCX."⟩,
      { documentIdVar := some (validateUUID d).sanitized,
        docUpdates := [⟨(validateUUID d).sanitized, "processing", none⟩,
          ⟨(validateUUID d).sanitized, "error",
           some (unsupportedMsg doc.file_type)⟩],
        audits := as, aiCalled := false, inserted := [] }) := by
    simp [processDocument, hmb]
  refine ⟨by rw [hpd], by rw [hpd], ?_⟩
  rw [finalDocs, hpd]
  simp only [applyDocUpdates, List.foldl]
  simp [hdb, hu]

/-- A stored legacy `.doc` document: the MIME type passes the allow-list,
no local extractor matches it, and it is not an image type. -/
def wDocLegacy : DocRow :=
  { wDoc with file_type := some "application/msword", filename := some "legacy.doc" }

def wInputLegacy : HandlerInput :=
  { wInput with db := fun k => if k == wId then some wDocLegacy else none }

/-- C6 witness: the short-circuit theorem applied at a concrete legacy
`.doc` run, discharging every hypothesis. -/
theorem unsupported_short_circuit_witness :
    jsTruthyO (inlineTextOf wInputLegacy wDocLegacy) = false ∧
    isImageType wDocLegacy = false ∧
    (processDocument wInputLegacy).1
      = ⟨400, RespBody.err "Unsupported file type. Supported: images, PDFs, DOCX."⟩ ∧
    (processDocument wInputLegacy).2.aiCalled = false ∧
    finalDocs wInputLegacy wId
      = some { wDocLegacy with
          status := "error"
          error_message := some "Unsupported file type for automated processing: application/msword. Supported: images, PDFs, DOCX." } := by
  have h := unsupported_short_circuit wInputLegacy wId wDocLegacy
    (by decide) rfl (by decide) (by decide) rfl (by decide) (by decide)
    (by decide) rfl (by decide) (by decide)
  have hsw : (validateUUID wId).sanitized = wId := by decide
  rw [hsw] at h
  refine ⟨by decide, by decide, h.1, h.2.1, ?_⟩
  rw [h.2.2]
  decide
